import Mathlib

/-!
Verification of the scratchpad orchestration core.

This file gives a shallow embedding of the parts of the program that the
checked properties speak about: branch-name sanitisation and scratch
lifecycle (src/scratch/mod.rs, src/scratch/lifecycle.rs, src/scratch/status.rs),
per-scratch database provisioning (src/services/postgres.rs), shared-service
provisioning (src/services/shared.rs), the websocket broadcast hub
(src/api/websocket.rs) and the proxy-configuration generator
(src/nginx/config.rs).

External, effectful collaborators (the container runtime, the filesystem, the
database engine, subprocesses) are represented by explicit "world" records
that fix the outcome of each fallible external call, and every modelled
operation returns the list of external actions it performed alongside its
result, so that claims about "no side effects" and "step X still executes"
become statements about that action trace.
-/

/-- The error type of the program (src/error.rs), with the payloads of the
wrapped foreign errors (docker, io, database, template, toml, yaml, json)
abstracted away. -/
inductive Err
  | Config (msg : String)
  | Docker
  | Template
  | Io
  | TomlParse
  | YamlParse
  | Json
  | Database
  | ScratchNotFound (name : String)
  | ScratchAlreadyExists (name : String)
  | ServiceNotFound (name : String)
  | InvalidScratchName (msg : String)
  | ConfigNotFound
  | Other (msg : String)
deriving DecidableEq, Repr

/-- Rust's char::is_alphanumeric (true on the Unicode Alphabetic and Number
categories), tabulated over the Basic Latin and Latin-1 Supplement blocks
(codepoints up to 0xFF): ASCII digits and letters, and in 0x80-0xFF the
characters U+00AA, U+00B2, U+00B3, U+00B5, U+00B9, U+00BA, U+00BC, U+00BD,
U+00BE and the letters U+00C0-U+00D6, U+00D8-U+00F6, U+00F8-U+00FF.
Theorems that quantify over whole strings restrict them to this range. -/
def rustIsAlphanumeric (c : Char) : Bool :=
  let n := c.toNat
  (48 ≤ n && n ≤ 57) || (65 ≤ n && n ≤ 90) || (97 ≤ n && n ≤ 122) ||
  n == 0xAA || n == 0xB2 || n == 0xB3 || n == 0xB5 || n == 0xB9 || n == 0xBA ||
  n == 0xBC || n == 0xBD || n == 0xBE ||
  (0xC0 ≤ n && n ≤ 0xD6) || (0xD8 ≤ n && n ≤ 0xF6) || (0xF8 ≤ n && n ≤ 0xFF)

/-- Rust's char::is_uppercase (Unicode category Lu), tabulated over the Basic
Latin and Latin-1 Supplement blocks: A-Z and the letters U+00C0-U+00D6 and
U+00D8-U+00DE. -/
def rustIsUppercase (c : Char) : Bool :=
  let n := c.toNat
  (65 ≤ n && n ≤ 90) || (0xC0 ≤ n && n ≤ 0xD6) || (0xD8 ≤ n && n ≤ 0xDE)

/-- Is the character an ASCII uppercase letter A-Z. -/
def isAsciiUpper (c : Char) : Bool :=
  65 ≤ c.toNat && c.toNat ≤ 90

namespace Scratch

/-- One character of the first pass of Scratch::sanitize_name: an
alphanumeric, '-' or '_' character is kept, ASCII-lowercased (Rust's
to_ascii_lowercase, which is exactly Lean's Char.toLower: only A-Z move);
every other character becomes '-'. -/
def sanitizeChar (c : Char) : Char :=
  if rustIsAlphanumeric c || c == '-' || c == '_' then c.toLower else '-'

/-- The dash-collapsing loop of Scratch::sanitize_name: drops a '-' that
follows another '-' (the flag starts true, so leading dashes are dropped
too). -/
def collapseDashes : List Char → Bool → List Char
  | [], _ => []
  | c :: rest, lastWasDash =>
    if c == '-' then
      if lastWasDash then collapseDashes rest true
      else c :: collapseDashes rest true
    else c :: collapseDashes rest false

/-- Scratch::sanitize_name from src/scratch/mod.rs: map each character, then
collapse runs of dashes and drop leading dashes, then pop one trailing
dash. -/
def sanitize_name (branch : String) : String :=
  let mapped := branch.data.map sanitizeChar
  let collapsed := collapseDashes mapped true
  let trimmed := if collapsed.getLast? == some '-' then collapsed.dropLast else collapsed
  String.mk trimmed

end Scratch

/-- Does a character list contain two consecutive dashes. -/
def hasDoubleDash : List Char → Bool
  | c1 :: c2 :: rest => (c1 == '-' && c2 == '-') || hasDoubleDash (c2 :: rest)
  | _ => false

/-! ## PostgreSQL database provisioning (src/services/postgres.rs) -/

/-- The database-name validation shared by create_postgres_database and
drop_postgres_database: every character must satisfy is_alphanumeric or be
an underscore (a check that is vacuously true on the empty string). -/
def pgValidDbName (db : String) : Bool :=
  db.data.all (fun c => rustIsAlphanumeric c || c == '_')

/-- Modelled from the spec's words: the strict pattern [A-Za-z0-9_]+, that
is, one or more ASCII letters, digits or underscores. Used only to compare
the spec's claimed validation against the code's. -/
def specDbNamePattern (s : String) : Bool :=
  !s.data.isEmpty && s.data.all (fun c => c.isAlphanum || c == '_')

/-- Outcomes of the external calls made by the postgres provisioning
functions. -/
structure PgWorld where
  hasPostgresService : Bool
  connectOk : Bool
  existsOk : Bool
  dbExists : String → Bool
  execCreateOk : Bool
  execDropOk : Bool

/-- SQL-level actions performed against the database engine. -/
inductive PgEffect
  | connect
  | existsQuery (db : String)
  | createStmt (db : String)
  | terminateStmt (db : String)
  | dropStmt (db : String)
deriving DecidableEq, Repr

/-- create_postgres_database: look up the postgres catalogue entry, connect,
check existence (parameterized query), and only when the database is absent
validate the name and issue the CREATE DATABASE statement. -/
def create_postgres_database (w : PgWorld) (db_name : String) :
    Except Err Unit × List PgEffect :=
  if !w.hasPostgresService then (.error (.ServiceNotFound "postgres"), [])
  else if !w.connectOk then (.error .Database, [.connect])
  else if !w.existsOk then (.error .Database, [.connect, .existsQuery db_name])
  else if w.dbExists db_name then (.ok (), [.connect, .existsQuery db_name])
  else if !pgValidDbName db_name then
    (.error (.Config ("Invalid database name: " ++ db_name)),
      [.connect, .existsQuery db_name])
  else if w.execCreateOk then
    (.ok (), [.connect, .existsQuery db_name, .createStmt db_name])
  else (.error .Database, [.connect, .existsQuery db_name, .createStmt db_name])

/-- drop_postgres_database: look up the postgres catalogue entry, connect,
validate the name, then issue a best-effort terminate-connections statement
(its result is discarded) followed by DROP DATABASE IF EXISTS. -/
def drop_postgres_database (w : PgWorld) (db_name : String) :
    Except Err Unit × List PgEffect :=
  if !w.hasPostgresService then (.error (.ServiceNotFound "postgres"), [])
  else if !w.connectOk then (.error .Database, [.connect])
  else if !pgValidDbName db_name then
    (.error (.Config ("Invalid database name: " ++ db_name)), [.connect])
  else if w.execDropOk then
    (.ok (), [.connect, .terminateStmt db_name, .dropStmt db_name])
  else (.error .Database, [.connect, .terminateStmt db_name, .dropStmt db_name])

/-! ## Aggregate scratch status (src/scratch/status.rs) -/

/-- ScratchStatus::calculate_status: the per-service state map is modelled as
an association list of (service, state). Empty map means "stopped"; all
services "running" means "running"; at least one "running" means "partial";
otherwise "stopped". -/
def calculate_status (services : List (String × String)) : String :=
  if services.isEmpty then "stopped"
  else
    let all_running := services.all (fun p => p.2 == "running")
    let any_running := services.any (fun p => p.2 == "running")
    if all_running then "running"
    else if any_running then "partial"
    else "stopped"

/-! ## Shared service provisioning (src/services/shared.rs) -/

/-- The fields of a catalogue entry (config ServiceConfig) that the modelled
operations read. The env, volume and port-binding arguments passed to the
container-creation call are not represented: they do not affect control
flow. -/
structure ServiceEntry where
  image : String
  shared : Bool
  port : Option Nat
  internal_port : Option Nat
  healthcheck : Option String
  auto_create_db : Bool
deriving DecidableEq, Repr

/-- A container as reported by the runtime's list call. -/
structure ContainerInfo where
  id : String
  name : String
  state : String
deriving DecidableEq, Repr

/-- Outcomes of the external calls made by ensure_shared_service_running. -/
structure SharedWorld where
  services : List (String × ServiceEntry)
  listOk : Bool
  startOk : Bool
  createOk : Bool
  healthyOk : Bool

/-- Runtime actions performed by ensure_shared_service_running. -/
inductive SharedEffect
  | listShared
  | startContainer (id : String)
  | createContainer (name : String)
  | waitHealthy (name : String)
deriving DecidableEq, Repr

/-- The deterministic name of the singleton container of a catalogue key. -/
def sharedContainerName (service_name : String) : String :=
  "scratchpad-" ++ service_name

/-- ensure_shared_service_running: catalogue lookup, shared check, list the
labelled containers, and then either return immediately (found and running),
start the stopped container, or create it (and wait for health when a
health check is declared). Returns the result, the container list after the
call, and the runtime actions performed. -/
def ensure_shared_service_running (w : SharedWorld) (containers : List ContainerInfo)
    (service_name : String) :
    Except Err Unit × List ContainerInfo × List SharedEffect :=
  match w.services.lookup service_name with
  | none => (.error (.ServiceNotFound service_name), containers, [])
  | some svc =>
    if !svc.shared then
      (.error (.Config ("Service " ++ service_name ++ " is not configured as shared")),
        containers, [])
    else if !w.listOk then (.error .Docker, containers, [.listShared])
    else
      let cname := sharedContainerName service_name
      match containers.find? (fun c => c.name == cname) with
      | some c =>
        if c.state == "running" then (.ok (), containers, [.listShared])
        else if w.startOk then
          (.ok (),
            containers.map (fun d => if d.id == c.id then { d with state := "running" } else d),
            [.listShared, .startContainer c.id])
        else (.error .Docker, containers, [.listShared, .startContainer c.id])
      | none =>
        if !w.createOk then
          (.error .Docker, containers, [.listShared, .createContainer cname])
        else
          let containers2 := containers ++ [{ id := cname, name := cname, state := "running" }]
          if svc.healthcheck.isSome then
            if w.healthyOk then
              (.ok (), containers2, [.listShared, .createContainer cname, .waitHealthy cname])
            else
              (.error (.Other ("Timeout waiting for " ++ cname ++ " to become healthy")),
                containers2, [.listShared, .createContainer cname, .waitHealthy cname])
          else (.ok (), containers2, [.listShared, .createContainer cname])

/-- How many container-creation calls a trace contains. -/
def countCreates (effs : List SharedEffect) : Nat :=
  (effs.filter (fun e => match e with | .createContainer _ => true | _ => false)).length

/-! ## Websocket broadcast hub (src/api/websocket.rs) -/

/-- A message sink (an mpsc sender): an identity for bookkeeping in the
model, and whether its receiving side has gone away. -/
structure Sink where
  id : Nat
  closed : Bool
deriving DecidableEq, Repr

/-- The hub's subscriber map (channel name to list of sinks), modelled as an
association list with distinct keys. -/
abbrev HubState := List (String × List Sink)

/-- WsBroadcastHub::subscribe: append the sink to the channel's entry,
inserting the entry if absent. -/
def hubSubscribe (st : HubState) (channel : String) (tx : Sink) : HubState :=
  if st.any (fun p => p.1 == channel) then
    st.map (fun p => if p.1 == channel then (p.1, p.2 ++ [tx]) else p)
  else st ++ [(channel, [tx])]

/-- WsBroadcastHub::unsubscribe: prune the closed sinks of the named channel,
then drop every channel of the whole map whose sink list is empty. -/
def hubUnsubscribe (st : HubState) (channel : String) : HubState :=
  (st.map (fun p => if p.1 == channel then (p.1, p.2.filter (fun s => !s.closed)) else p)).filter
    (fun p => !p.2.isEmpty)

/-- WsBroadcastHub::cleanup: prune closed sinks across all channels, then
drop every channel whose sink list is empty. -/
def hubCleanup (st : HubState) : HubState :=
  (st.map (fun p => (p.1, p.2.filter (fun s => !s.closed)))).filter
    (fun p => !p.2.isEmpty)

/-- The sinks currently subscribed on a channel, as broadcast reads them
(the channel's map entry, or nothing). -/
def hubSinksOf (st : HubState) (channel : String) : List Sink :=
  (st.lookup channel).getD []

/-- WsBroadcastHub::broadcast: a send is attempted to every sink of the
channel's entry; a send to a closed sink fails and the failure is discarded.
Returns the state after the call (broadcast holds only a read lock and
mutates nothing), the sinks to which a send was attempted, and the ids of
the sinks that actually received the message. -/
def hubBroadcast (st : HubState) (channel : String) :
    HubState × List Sink × List Nat :=
  let targets := hubSinksOf st channel
  (st, targets, (targets.filter (fun s => !s.closed)).map Sink.id)

/-- WsBroadcastHub::get_channels: the keys of the subscriber map. -/
def hubChannels (st : HubState) : List String := st.map Prod.fst

/-- A client disconnect: the sink with the given id becomes closed everywhere
(dropping an mpsc receiver closes every clone of its sender). -/
def hubCloseSink (st : HubState) (i : Nat) : HubState :=
  st.map (fun p => (p.1, p.2.map (fun s => if s.id == i then { s with closed := true } else s)))

/-- The operations that touch the hub's subscriber map. -/
inductive HubOp
  | sub (channel : String) (tx : Sink)
  | unsub (channel : String)
  | bcast (channel : String)
  | clean
  | close (i : Nat)

/-- One hub operation applied to the subscriber map. -/
def hubApply (st : HubState) : HubOp → HubState
  | .sub c tx => hubSubscribe st c tx
  | .unsub c => hubUnsubscribe st c
  | .bcast c => (hubBroadcast st c).1
  | .clean => hubCleanup st
  | .close i => hubCloseSink st i

/-- The subscriber map reached from the empty map by a sequence of hub
operations. -/
def hubRun (ops : List HubOp) : HubState := ops.foldl hubApply []

/-! ## Proxy configuration generation (src/nginx/config.rs) -/

/-- The routing style (config NginxRouting). -/
inductive Routing
  | subdomain
  | path
deriving DecidableEq, Repr

/-- The nginx-related configuration read by regenerate_config. -/
structure NginxCfg where
  enabled : Bool
  domain : String
  routing : Routing
  ingress_service : Option String
  dynamic : Option Bool
  services : List (String × ServiceEntry)

/-- A top-level block of the rendered proxy configuration. The templates are
block sequences; each template loop over the scratch list is embedded as a
map producing one block (or one location entry in the path-routing static
server block) per scratch. -/
inductive NginxBlock
  | upstream (scratch : String) (server : String)
  | serverPerScratch (scratch : String) (server_name : String)
  | serverStaticPath (domain : String) (scratchLocations : List String)
  | serverDynamic (routing : Routing) (domain : String) (ingress : String) (upstream_port : Nat)
deriving DecidableEq, Repr

/-- The static template (NGINX_STATIC_TEMPLATE): one upstream block per
scratch, then one server block per scratch (subdomain routing) or a single
server block with one location per scratch (path routing). -/
def renderStaticBlocks (domain ingress : String) (upstream_port : Nat)
    (routing : Routing) (scratches : List String) : List NginxBlock :=
  (scratches.map (fun n =>
    .upstream n (n ++ "-" ++ ingress ++ ":" ++ toString upstream_port)))
  ++ match routing with
     | .subdomain => scratches.map (fun n => .serverPerScratch n (n ++ "." ++ domain))
     | .path => [.serverStaticPath domain scratches]

/-- The dynamic template (NGINX_DYNAMIC_TEMPLATE): a single server block per
routing style that resolves the upstream from the request; it takes no
scratch list at all. -/
def renderDynamicBlocks (domain ingress : String) (upstream_port : Nat)
    (routing : Routing) : List NginxBlock :=
  [.serverDynamic routing domain ingress upstream_port]

/-- Outcomes of the external calls made by regenerate_config. -/
structure NginxWorld where
  listOk : Bool
  scratches : List String
  mkdirOk : Bool
  writeOk : Bool

/-- Filesystem and runtime actions performed by regenerate_config. -/
inductive NginxEffect
  | listScratches
  | mkdirParent
  | writeConfig (blocks : List NginxBlock)
deriving DecidableEq, Repr

/-- The tail of regenerate_config: create the parent directory of the
configured path, then write the rendered document there. -/
def writeRendered (w : NginxWorld) (blocks : List NginxBlock)
    (effs : List NginxEffect) : Except Err Unit × List NginxEffect :=
  if !w.mkdirOk then (.error .Io, effs ++ [.mkdirParent])
  else if !w.writeOk then (.error .Io, effs ++ [.mkdirParent, .writeConfig blocks])
  else (.ok (), effs ++ [.mkdirParent, .writeConfig blocks])

/-- regenerate_config: no-op when routing is disabled; requires
ingress_service; resolves the upstream port from the ingress entry
(internal_port, else port, else 3000); renders the dynamic template by
default or the static template (after listing scratches) when dynamic is
explicitly false; writes the rendered document. -/
def regenerate_config (cfg : NginxCfg) (w : NginxWorld) :
    Except Err Unit × List NginxEffect :=
  if !cfg.enabled then (.ok (), [])
  else
    match cfg.ingress_service with
    | none =>
      (.error (.Config
        "nginx.ingress_service must be set to specify which service handles incoming requests"),
        [])
    | some ingress =>
      let upstream_port := ((cfg.services.lookup ingress).bind
        (fun svc => svc.internal_port.orElse (fun _ => svc.port))).getD 3000
      let use_dynamic := cfg.dynamic.getD true
      if use_dynamic then
        writeRendered w (renderDynamicBlocks cfg.domain ingress upstream_port cfg.routing) []
      else if !w.listOk then (.error .Docker, [.listScratches])
      else
        writeRendered w
          (renderStaticBlocks cfg.domain ingress upstream_port cfg.routing w.scratches)
          [.listScratches]

/-- Is a rendered block an upstream block. -/
def isUpstreamBlock : NginxBlock → Bool
  | .upstream _ _ => true
  | _ => false

/-- How many per-scratch server or location entries a rendered block holds:
a per-scratch server block counts one, the static path-routing server block
counts one per scratch location, the dynamic server block counts none. -/
def perScratchCount : NginxBlock → Nat
  | .upstream _ _ => 0
  | .serverPerScratch _ _ => 1
  | .serverStaticPath _ locs => locs.length
  | .serverDynamic _ _ _ _ => 0

/-- Number of upstream blocks of a rendered document. -/
def countUpstreams (bs : List NginxBlock) : Nat :=
  (bs.filter isUpstreamBlock).length

/-- Number of per-scratch server/location entries of a rendered document. -/
def countPerScratchServers (bs : List NginxBlock) : Nat :=
  (bs.map perScratchCount).sum

/-! ## Scratch lifecycle (src/scratch/lifecycle.rs) -/

/-- The configuration read by the lifecycle operations: default service list
and template, named profiles (service list, optional template), the service
catalogue, and whether proxy routing is enabled. -/
structure LifecycleCfg where
  defaultServices : List String
  defaultTemplate : String
  profiles : List (String × (List String × Option String))
  services : List (String × ServiceEntry)
  nginxEnabled : Bool

/-- Outcomes of the external calls made by create_scratch. -/
structure CreateWorld where
  dirExists : String → Bool
  mkdirOk : Bool
  networkOk : Bool
  ensureOk : Bool
  createDbOk : Bool
  renderOk : Bool
  saveComposeOk : Bool
  writeMetaOk : Bool
  composeUpOk : Bool
  regenOk : Bool
  reloadOk : Bool

/-- Side effects performed by create_scratch. -/
inductive CreateEffect
  | mkdirs (name : String)
  | ensureNetwork
  | ensureService (svc : String)
  | createDb (db : String)
  | saveCompose (name : String)
  | writeMeta (name : String)
  | composeUp (name : String)
  | regenNginx
  | reloadNginx
deriving DecidableEq, Repr

/-- The Scratch record built by create_scratch. -/
structure ScratchData where
  name : String
  branch : String
  template : String
  services : List String
  databases : List (String × List String)
deriving DecidableEq, Repr

/-- databases.entry(service).or_default().push(db): append the database name
to the service's entry of the association list, inserting it if absent. -/
def pushDb (m : List (String × List String)) (k v : String) :
    List (String × List String) :=
  if m.any (fun p => p.1 == k) then
    m.map (fun p => if p.1 == k then (p.1, p.2 ++ [v]) else p)
  else m ++ [(k, [v])]

/-- The provisioning loop of create_scratch: for every declared service whose
catalogue entry is shared with auto_create_db, and which is the postgres
service, ensure the shared engine is running and create the per-scratch
logical database scratch_\x7bname\x7d; a failure of either step aborts the
loop and hence the whole create. -/
def provisionDatabases (cfg : LifecycleCfg) (w : CreateWorld) (scratch_name : String) :
    List String → List (String × List String) →
    Except Err (List (String × List String)) × List CreateEffect
  | [], acc => (.ok acc, [])
  | svc :: rest, acc =>
    match cfg.services.lookup svc with
    | none => provisionDatabases cfg w scratch_name rest acc
    | some sc =>
      if sc.shared && sc.auto_create_db && (svc == "postgres") then
        let db := "scratch_" ++ scratch_name
        if !w.ensureOk then (.error .Docker, [.ensureService svc])
        else if !w.createDbOk then (.error .Database, [.ensureService svc, .createDb db])
        else
          let r := provisionDatabases cfg w scratch_name rest (pushDb acc svc db)
          (r.1, .ensureService svc :: .createDb db :: r.2)
      else provisionDatabases cfg w scratch_name rest acc

/-- create_scratch: resolve the name (given, or the sanitized branch slug),
reject an empty name, reject an existing target directory, resolve services
and template from the optional profile, then perform the effectful steps in
order: directory tree, shared network, database provisioning, compose-file
rendering and save, metadata save, compose up, and (when routing is
enabled) proxy regeneration and reload. -/
def create_scratch (cfg : LifecycleCfg) (w : CreateWorld) (branch : String)
    (name profile template : Option String) :
    Except Err ScratchData × List CreateEffect :=
  let scratch_name := name.getD (Scratch.sanitize_name branch)
  if scratch_name.data.isEmpty then
    (.error (.InvalidScratchName "Scratch name cannot be empty"), [])
  else if w.dirExists scratch_name then
    (.error (.ScratchAlreadyExists scratch_name), [])
  else
    let services := match profile with
      | some p => ((cfg.profiles.lookup p).map Prod.fst).getD cfg.defaultServices
      | none => cfg.defaultServices
    let template_name := (template.orElse (fun _ =>
        profile.bind (fun p => (cfg.profiles.lookup p).bind Prod.snd))).getD cfg.defaultTemplate
    if !w.mkdirOk then (.error .Io, [.mkdirs scratch_name])
    else if !w.networkOk then (.error .Docker, [.mkdirs scratch_name, .ensureNetwork])
    else
      match provisionDatabases cfg w scratch_name services [] with
      | (.error e, effs) => (.error e, [.mkdirs scratch_name, .ensureNetwork] ++ effs)
      | (.ok dbs, effs) =>
        let pre := [CreateEffect.mkdirs scratch_name, CreateEffect.ensureNetwork] ++ effs
        if !w.renderOk then (.error .Template, pre)
        else if !w.saveComposeOk then (.error .Io, pre ++ [.saveCompose scratch_name])
        else if !w.writeMetaOk then
          (.error .Io, pre ++ [.saveCompose scratch_name, .writeMeta scratch_name])
        else if !w.composeUpOk then
          (.error (.Other "Failed to start scratch"),
            pre ++ [.saveCompose scratch_name, .writeMeta scratch_name, .composeUp scratch_name])
        else
          let started := pre ++ [CreateEffect.saveCompose scratch_name,
            CreateEffect.writeMeta scratch_name, CreateEffect.composeUp scratch_name]
          let data : ScratchData :=
            { name := scratch_name, branch := branch, template := template_name,
              services := services, databases := dbs }
          if cfg.nginxEnabled then
            if !w.regenOk then (.error .Docker, started ++ [.regenNginx])
            else if !w.reloadOk then (.error .Docker, started ++ [.regenNginx, .reloadNginx])
            else (.ok data, started ++ [.regenNginx, .reloadNginx])
          else (.ok data, started)

/-- Outcomes of the external calls made by delete_scratch. -/
structure DeleteWorld where
  dirExists : Bool
  metaExists : Bool
  metaReadOk : Bool
  metaParse : Option (List (String × List String))
  dropOk : String → Bool
  stopOk : Bool
  removeOk : Bool
  nginxEnabled : Bool
  regenOk : Bool
  reloadOk : Bool

/-- Side effects performed by delete_scratch. A failed database drop is
recorded as the attempted drop followed by the warning log line the code
emits for it. -/
inductive DeleteEffect
  | dropDb (db : String)
  | warnDropFailed (db : String)
  | composeDown
  | removeDir
  | regenNginx
  | reloadNginx
deriving DecidableEq, Repr

/-- The database-drop loop of delete_scratch over the parsed metadata: every
database listed under the postgres service is dropped; a failed drop only
adds a warning log line and the loop continues. -/
def dropDatabasesEffects (w : DeleteWorld) (m : List (String × List String)) :
    List DeleteEffect :=
  m.flatMap (fun p =>
    if p.1 == "postgres" then
      p.2.flatMap (fun db =>
        if w.dropOk db then [.dropDb db] else [.dropDb db, .warnDropFailed db])
    else [])

/-- The database-drop phase of delete_scratch: nothing when the metadata
file is absent or does not parse, otherwise the best-effort drops of the
parsed record. -/
def deleteDropEffs (w : DeleteWorld) : List DeleteEffect :=
  if w.metaExists then
    match w.metaParse with
    | some m => dropDatabasesEffects w m
    | none => []
  else []

/-- delete_scratch: require the directory to exist; if the metadata file
exists, read it (a read failure aborts) and, when it parses, drop each
listed database best-effort; then stop the compose environment (a failure
aborts), remove the directory tree (a failure aborts), and regenerate and
reload the proxy when routing is enabled. -/
def delete_scratch (w : DeleteWorld) (name : String) :
    Except Err Unit × List DeleteEffect :=
  if !w.dirExists then (.error (.ScratchNotFound name), [])
  else if w.metaExists && !w.metaReadOk then (.error .Io, [])
  else
    let dropEffs := deleteDropEffs w
    if !w.stopOk then
      (.error (.Other "Failed to stop scratch"), dropEffs ++ [.composeDown])
    else if !w.removeOk then (.error .Io, dropEffs ++ [.composeDown, .removeDir])
    else if w.nginxEnabled then
      if !w.regenOk then
        (.error .Docker, dropEffs ++ [.composeDown, .removeDir, .regenNginx])
      else if !w.reloadOk then
        (.error .Docker, dropEffs ++ [.composeDown, .removeDir, .regenNginx, .reloadNginx])
      else (.ok (), dropEffs ++ [.composeDown, .removeDir, .regenNginx, .reloadNginx])
    else (.ok (), dropEffs ++ [.composeDown, .removeDir])

/-! ## Concrete worlds and configurations used by witnesses -/

/-- A postgres world where the engine is reachable, no database exists yet,
and every statement succeeds. -/
def pgAllOk : PgWorld :=
  { hasPostgresService := true, connectOk := true, existsOk := true,
    dbExists := fun _ => false, execCreateOk := true, execDropOk := true }

/-- A shared postgres catalogue entry. -/
def pgEntry0 : ServiceEntry :=
  { image := "postgres:16", shared := true, port := some 5432, internal_port := none,
    healthcheck := some "pg_isready", auto_create_db := true }

/-- A lifecycle configuration with a postgres catalogue entry and routing
disabled. -/
def cfg0 : LifecycleCfg :=
  { defaultServices := ["postgres", "app"], defaultTemplate := "default",
    profiles := [], services := [("postgres", pgEntry0)], nginxEnabled := false }

/-- A create world where only the directory of the scratch "demo" already
exists and every step succeeds. -/
def wCreate0 : CreateWorld :=
  { dirExists := fun n => n == "demo", mkdirOk := true, networkOk := true,
    ensureOk := true, createDbOk := true, renderOk := true, saveComposeOk := true,
    writeMetaOk := true, composeUpOk := true, regenOk := true, reloadOk := true }

/-- A delete world where the compose-down step fails while everything else
would succeed. -/
def wDelStopFail : DeleteWorld :=
  { dirExists := true, metaExists := true, metaReadOk := true,
    metaParse := some [("postgres", ["scratch_a"])], dropOk := fun _ => true,
    stopOk := false, removeOk := true, nginxEnabled := false,
    regenOk := true, reloadOk := true }

/-- A delete world where every database drop fails while the remaining steps
succeed. -/
def wDelDropFail : DeleteWorld :=
  { dirExists := true, metaExists := true, metaReadOk := true,
    metaParse := some [("postgres", ["scratch_a", "scratch_b"])], dropOk := fun _ => false,
    stopOk := true, removeOk := true, nginxEnabled := false,
    regenOk := true, reloadOk := true }

/-- A shared-service world with a postgres catalogue entry and a runtime
where every call succeeds. -/
def wShared0 : SharedWorld :=
  { services := [("postgres", pgEntry0)], listOk := true, startOk := true,
    createOk := true, healthyOk := true }

/-- A hub state with one channel holding only a closed sink and another
channel holding a live one. -/
def hubSt0 : HubState :=
  [("status:a", [{ id := 1, closed := true }]), ("logs:a", [{ id := 2, closed := false }])]

/-- A static-mode routing configuration. -/
def cfgStat0 : NginxCfg :=
  { enabled := true, domain := "scratch.local", routing := .subdomain,
    ingress_service := some "web", dynamic := some false, services := [] }

/-- A dynamic-mode routing configuration. -/
def cfgDyn0 : NginxCfg :=
  { enabled := true, domain := "scratch.local", routing := .path,
    ingress_service := some "web", dynamic := none, services := [] }

/-- A disabled routing configuration. -/
def cfgOff0 : NginxCfg :=
  { enabled := false, domain := "scratch.local", routing := .subdomain,
    ingress_service := none, dynamic := none, services := [] }

/-- An enabled routing configuration without an ingress service. -/
def cfgNoIngress0 : NginxCfg :=
  { enabled := true, domain := "scratch.local", routing := .subdomain,
    ingress_service := none, dynamic := none, services := [] }

/-- A routing world with two scratches listed and a writable filesystem. -/
def wNg0 : NginxWorld :=
  { listOk := true, scratches := ["alpha", "beta"], mkdirOk := true, writeOk := true }

/-! ## Character and list lemmas for the sanitiser -/

open Scratch in
theorem sanitize_name_def (branch : String) :
    Scratch.sanitize_name branch =
      (let collapsed := collapseDashes (branch.data.map sanitizeChar) true
       String.mk (if collapsed.getLast? == some '-' then collapsed.dropLast else collapsed)) :=
  rfl

open Scratch

theorem char_toNat_ofNat (n : Nat) (h : n < 0xd800) : (Char.ofNat n).toNat = n := by
  rw [Char.ofNat, dif_pos (Or.inl h)]
  rfl

theorem toLower_toNat_of_upper {c : Char} (h : 65 ≤ c.toNat ∧ c.toNat ≤ 90) :
    (Char.toLower c).toNat = c.toNat + 32 := by
  unfold Char.toLower
  rw [if_pos ⟨h.1, h.2⟩]
  exact char_toNat_ofNat _ (by omega)

theorem toLower_eq_self {c : Char} (h : ¬(65 ≤ c.toNat ∧ c.toNat ≤ 90)) :
    Char.toLower c = c := by
  unfold Char.toLower
  rw [if_neg h]

theorem hasDoubleDash_cons (c : Char) (rest : List Char) :
    hasDoubleDash (c :: rest) =
      ((c == '-' && rest.head?.any (fun d => d == '-')) || hasDoubleDash rest) := by
  cases rest <;> simp [hasDoubleDash]

theorem collapse_head_ne (l : List Char) : (collapseDashes l true).head? ≠ some '-' := by
  induction l with
  | nil => simp [collapseDashes]
  | cons c rest ih =>
    by_cases hc : c = '-'
    · subst hc
      simpa [collapseDashes] using ih
    · simp [collapseDashes, hc]

theorem collapse_noDD (l : List Char) : ∀ b, hasDoubleDash (collapseDashes l b) = false := by
  induction l with
  | nil => intro b; simp [collapseDashes, hasDoubleDash]
  | cons c rest ih =>
    intro b
    by_cases hc : c = '-'
    · subst hc
      cases b with
      | true => simpa [collapseDashes] using ih true
      | false =>
        have ht := ih true
        have hh := collapse_head_ne rest
        simp only [collapseDashes, beq_self_eq_true, if_true, Bool.false_eq_true, if_false]
        rw [hasDoubleDash_cons]
        simp only [ht, Bool.or_false, Bool.and_eq_false_iff]
        right
        cases hE : (collapseDashes rest true).head? with
        | none => simp
        | some d =>
          have hd : d ≠ '-' := by
            intro h
            exact hh (by rw [hE, h])
          simp [hd]
    · have ht := ih false
      simp only [collapseDashes, beq_iff_eq, hc, if_false]
      rw [hasDoubleDash_cons]
      simp [hc, ht]

theorem mem_collapse {a : Char} : ∀ {l : List Char} {b}, a ∈ collapseDashes l b → a ∈ l := by
  intro l
  induction l with
  | nil => intro b h; simp [collapseDashes] at h
  | cons c rest ih =>
    intro b h
    by_cases hc : c = '-'
    · subst hc
      cases b with
      | true =>
        simp only [collapseDashes, beq_self_eq_true, if_true] at h
        exact List.mem_cons_of_mem _ (ih h)
      | false =>
        simp only [collapseDashes, beq_self_eq_true, if_true, Bool.false_eq_true, if_false,
          List.mem_cons] at h
        rcases h with h | h
        · exact h ▸ List.mem_cons_self _ _
        · exact List.mem_cons_of_mem _ (ih h)
    · simp only [collapseDashes, beq_iff_eq, hc, if_false, List.mem_cons] at h
      rcases h with h | h
      · exact h ▸ List.mem_cons_self _ _
      · exact List.mem_cons_of_mem _ (ih h)

theorem hasDoubleDash_cons_false {c : Char} {rest : List Char}
    (h : hasDoubleDash (c :: rest) = false) :
    hasDoubleDash rest = false ∧ (c = '-' → rest.head? ≠ some '-') := by
  rw [hasDoubleDash_cons] at h
  simp only [Bool.or_eq_false_iff, Bool.and_eq_false_iff] at h
  refine ⟨h.2, ?_⟩
  intro hcd hh
  rcases h.1 with h1 | h1
  · simp [hcd] at h1
  · rw [hh] at h1
    simp at h1

theorem collapse_eq_self : ∀ {l : List Char} {b : Bool}, hasDoubleDash l = false →
    (b = true → l.head? ≠ some '-') → collapseDashes l b = l := by
  intro l
  induction l with
  | nil => intro b _ _; rfl
  | cons c rest ih =>
    intro b h1 h2
    obtain ⟨hr, hcd⟩ := hasDoubleDash_cons_false h1
    by_cases hc : c = '-'
    · subst hc
      cases b with
      | true => exact absurd rfl (fun h => h2 h rfl)
      | false =>
        simp only [collapseDashes, beq_self_eq_true, if_true, Bool.false_eq_true, if_false]
        rw [ih hr (fun _ => hcd rfl)]
    · simp only [collapseDashes, beq_iff_eq, hc, if_false]
      rw [ih hr (fun h => absurd h (by simp))]

theorem noDD_dropLast : ∀ {l : List Char}, hasDoubleDash l = false →
    hasDoubleDash l.dropLast = false := by
  intro l
  induction l with
  | nil => intro _; rfl
  | cons c rest ih =>
    intro h
    obtain ⟨hr, _⟩ := hasDoubleDash_cons_false h
    cases rest with
    | nil => rfl
    | cons d t =>
      rw [List.dropLast_cons₂, hasDoubleDash_cons]
      have hdd := ih hr
      rw [hasDoubleDash_cons] at h
      simp only [Bool.or_eq_false_iff, Bool.and_eq_false_iff] at h ⊢
      constructor
      · rcases h.1 with h1 | h1
        · exact Or.inl h1
        · cases t with
          | nil => right; simp
          | cons e t2 =>
            right
            rw [List.dropLast_cons₂]
            simpa using h1
      · exact hdd

theorem getLast_dropLast_ne : ∀ {l : List Char}, hasDoubleDash l = false →
    l.getLast? = some '-' → l.dropLast.getLast? ≠ some '-' := by
  intro l
  induction l with
  | nil => intro _ h; simp at h
  | cons c rest ih =>
    intro h1 h2
    cases rest with
    | nil => simp
    | cons d t =>
      rw [List.getLast?_cons_cons] at h2
      rw [List.dropLast_cons₂]
      obtain ⟨hr, hcd⟩ := hasDoubleDash_cons_false h1
      cases t with
      | nil =>
        simp only [List.getLast?_singleton, Option.some.injEq] at h2
        subst h2
        simp only [List.dropLast_single]
        intro hcon
        simp only [List.getLast?_singleton, Option.some.injEq] at hcon
        rw [hasDoubleDash_cons] at h1
        simp [hcon] at h1
      | cons e t2 =>
        rw [List.dropLast_cons₂, List.getLast?_cons_cons]
        rw [← List.dropLast_cons₂]
        exact ih hr h2

theorem head_dropLast_ne {l : List Char} (h : l.head? ≠ some '-') :
    l.dropLast.head? ≠ some '-' := by
  cases l with
  | nil => simp
  | cons c rest =>
    cases rest with
    | nil => simp
    | cons d t =>
      rw [List.dropLast_cons₂]
      simpa using h

theorem sanitizeChar_notUpper (c : Char) :
    isAsciiUpper (Scratch.sanitizeChar c) = false := by
  unfold Scratch.sanitizeChar
  split
  · by_cases h : 65 ≤ c.toNat ∧ c.toNat ≤ 90
    · have h1 := toLower_toNat_of_upper h
      simp only [isAsciiUpper, h1]
      simp only [Bool.and_eq_false_iff, decide_eq_false_iff_not]
      omega
    · rw [toLower_eq_self h]
      simp only [isAsciiUpper, Bool.and_eq_false_iff, decide_eq_false_iff_not]
      omega
  · decide

theorem sanitizeChar_fix (c : Char) :
    Scratch.sanitizeChar (Scratch.sanitizeChar c) = Scratch.sanitizeChar c := by
  unfold Scratch.sanitizeChar
  by_cases hk : (rustIsAlphanumeric c || c == '-' || c == '_') = true
  · rw [if_pos hk]
    by_cases h : 65 ≤ c.toNat ∧ c.toNat ≤ 90
    · have h1 : (Char.toLower c).toNat = c.toNat + 32 := toLower_toNat_of_upper h
      have halnum : rustIsAlphanumeric (Char.toLower c) = true := by
        simp only [rustIsAlphanumeric, h1]
        simp only [Bool.or_eq_true, Bool.and_eq_true, decide_eq_true_eq, beq_iff_eq]
        omega
      rw [if_pos (by simp [halnum])]
      exact toLower_eq_self (by rw [h1]; omega)
    · have h2 : Char.toLower c = c := toLower_eq_self h
      rw [h2, if_pos hk, h2]
  · rw [if_neg hk]
    decide

theorem sanitize_noDD (x : String) :
    hasDoubleDash (Scratch.sanitize_name x).data = false := by
  rw [sanitize_name_def]
  simp only []
  split
  · exact noDD_dropLast (collapse_noDD _ true)
  · exact collapse_noDD _ true

theorem sanitize_head_ne (x : String) :
    (Scratch.sanitize_name x).data.head? ≠ some '-' := by
  rw [sanitize_name_def]
  simp only []
  split
  · exact head_dropLast_ne (collapse_head_ne _)
  · exact collapse_head_ne _

theorem sanitize_last_ne (x : String) :
    (Scratch.sanitize_name x).data.getLast? ≠ some '-' := by
  rw [sanitize_name_def]
  simp only []
  split
  · rename_i hcond
    simp only [beq_iff_eq] at hcond
    exact getLast_dropLast_ne (collapse_noDD _ true) hcond
  · rename_i hcond
    simpa using hcond

theorem sanitize_mem_fix {x : String} {c : Char}
    (hc : c ∈ (Scratch.sanitize_name x).data) : Scratch.sanitizeChar c = c := by
  rw [sanitize_name_def] at hc
  simp only [] at hc
  have hcoll : c ∈ collapseDashes (x.data.map sanitizeChar) true := by
    rcases hc with hc
    split at hc
    · exact (List.dropLast_sublist _).mem hc
    · exact hc
  have hmapped : c ∈ x.data.map Scratch.sanitizeChar := mem_collapse hcoll
  obtain ⟨c0, _, hc0⟩ := List.mem_map.mp hmapped
  rw [← hc0]
  exact sanitizeChar_fix c0

theorem sanitize_notUpper {x : String} {c : Char}
    (hc : c ∈ (Scratch.sanitize_name x).data) : isAsciiUpper c = false := by
  rw [sanitize_name_def] at hc
  simp only [] at hc
  have hcoll : c ∈ collapseDashes (x.data.map sanitizeChar) true := by
    rcases hc with hc
    split at hc
    · exact (List.dropLast_sublist _).mem hc
    · exact hc
  have hmapped : c ∈ x.data.map Scratch.sanitizeChar := mem_collapse hcoll
  obtain ⟨c0, _, hc0⟩ := List.mem_map.mp hmapped
  rw [← hc0]
  exact sanitizeChar_notUpper c0

theorem sanitize_idem (x : String) :
    Scratch.sanitize_name (Scratch.sanitize_name x) = Scratch.sanitize_name x := by
  have hmap : (Scratch.sanitize_name x).data.map Scratch.sanitizeChar =
      (Scratch.sanitize_name x).data := by
    rw [List.map_congr_left (fun c hc => sanitize_mem_fix hc)]
    exact List.map_id _
  have hcoll : collapseDashes (Scratch.sanitize_name x).data true =
      (Scratch.sanitize_name x).data :=
    collapse_eq_self (sanitize_noDD x) (fun _ => sanitize_head_ne x)
  rw [sanitize_name_def (Scratch.sanitize_name x)]
  simp only []
  rw [hmap, hcoll, if_neg (by simpa using sanitize_last_ne x)]

/-! ## Claim theorems -/

/-- C4 (amended). For every input string (over the modelled Basic
Latin and Latin-1 range), sanitize_name is idempotent, its output contains
no two consecutive dashes and neither starts nor ends with a dash, and the
output contains no ASCII uppercase letter. (The original claim says the
output is lowercase outright; a non-ASCII uppercase letter such as 'É' is
kept unchanged because is_alphanumeric admits it while to_ascii_lowercase
leaves it alone, so only the ASCII form of the lowercase property holds.) -/
theorem sanitize_name_spec (x : String) (_hx : ∀ c ∈ x.data, c.toNat ≤ 0xFF) :
    Scratch.sanitize_name (Scratch.sanitize_name x) = Scratch.sanitize_name x ∧
    (∀ c ∈ (Scratch.sanitize_name x).data, isAsciiUpper c = false) ∧
    hasDoubleDash (Scratch.sanitize_name x).data = false ∧
    (Scratch.sanitize_name x).data.head? ≠ some '-' ∧
    (Scratch.sanitize_name x).data.getLast? ≠ some '-' :=
  ⟨sanitize_idem x, fun _ hc => sanitize_notUpper hc, sanitize_noDD x,
    sanitize_head_ne x, sanitize_last_ne x⟩

/-- C4 (counterexample). The claim that sanitize output is lowercase fails
at the input "É": the character 'É' is alphanumeric, so it is kept, and
to_ascii_lowercase does not move it, so the output "É" still contains an
uppercase letter. -/
theorem sanitize_name_lowercase_counterexample :
    Scratch.sanitize_name "É" = "É" ∧
    ¬(∀ c ∈ (Scratch.sanitize_name "É").data, rustIsUppercase c = false) := by
  constructor
  · decide
  · decide

/-- C4 (witness): the amended theorem applied at "Feature/MY_Branch". -/
theorem sanitize_name_spec_witness :
    (∀ c ∈ ("Feature/MY_Branch" : String).data, c.toNat ≤ 0xFF) ∧
    (Scratch.sanitize_name (Scratch.sanitize_name "Feature/MY_Branch") =
        Scratch.sanitize_name "Feature/MY_Branch" ∧
      (∀ c ∈ (Scratch.sanitize_name "Feature/MY_Branch").data, isAsciiUpper c = false) ∧
      hasDoubleDash (Scratch.sanitize_name "Feature/MY_Branch").data = false ∧
      (Scratch.sanitize_name "Feature/MY_Branch").data.head? ≠ some '-' ∧
      (Scratch.sanitize_name "Feature/MY_Branch").data.getLast? ≠ some '-') :=
  ⟨by decide, sanitize_name_spec "Feature/MY_Branch" (by decide)⟩

/-- C6 (confirmed). The aggregate status is "running" iff the service map is
non-empty and every service state is "running"; "partial" iff at least one
but not all service states are "running"; "stopped" iff the map is empty or
no service state is "running". -/
theorem calculate_status_spec (svcs : List (String × String)) :
    (calculate_status svcs = "running" ↔ svcs ≠ [] ∧ ∀ p ∈ svcs, p.2 = "running") ∧
    (calculate_status svcs = "partial" ↔
      (∃ p ∈ svcs, p.2 = "running") ∧ ¬(∀ p ∈ svcs, p.2 = "running")) ∧
    (calculate_status svcs = "stopped" ↔ svcs = [] ∨ ∀ p ∈ svcs, p.2 ≠ "running") := by
  simp only [calculate_status]
  by_cases hE : svcs.isEmpty
  · rw [if_pos hE]
    have hnil : svcs = [] := by simpa using hE
    subst hnil
    refine ⟨?_, ?_, ?_⟩
    · constructor
      · intro h; exact absurd h (by decide)
      · rintro ⟨h, _⟩; exact absurd rfl h
    · constructor
      · intro h; exact absurd h (by decide)
      · rintro ⟨⟨p, hp, _⟩, _⟩; simp at hp
    · simp
  · rw [if_neg hE]
    have hne : svcs ≠ [] := fun h => hE (by simp [h])
    by_cases hall : svcs.all (fun p => p.2 == "running")
    · rw [if_pos hall]
      have hall2 : ∀ p ∈ svcs, p.2 = "running" := by simpa using hall
      refine ⟨?_, ?_, ?_⟩
      · exact iff_of_true rfl ⟨hne, hall2⟩
      · constructor
        · intro h; exact absurd h (by decide)
        · rintro ⟨_, hna⟩; exact absurd hall2 hna
      · constructor
        · intro h; exact absurd h (by decide)
        · rintro (h | h)
          · exact absurd h hne
          · obtain ⟨p, hp⟩ := List.exists_mem_of_ne_nil svcs hne
            exact absurd (hall2 p hp) (h p hp)
    · rw [if_neg hall]
      have hnall : ¬(∀ p ∈ svcs, p.2 = "running") := fun hc => hall (by simpa using hc)
      by_cases hany : svcs.any (fun p => p.2 == "running")
      · rw [if_pos hany]
        have hany2 : ∃ p ∈ svcs, p.2 = "running" := by simpa using hany
        refine ⟨?_, ?_, ?_⟩
        · constructor
          · intro h; exact absurd h (by decide)
          · rintro ⟨_, h2⟩; exact absurd h2 hnall
        · exact iff_of_true rfl ⟨hany2, hnall⟩
        · constructor
          · intro h; exact absurd h (by decide)
          · rintro (h | h)
            · exact absurd h hne
            · obtain ⟨p, hp, hr⟩ := hany2
              exact absurd hr (h p hp)
      · rw [if_neg hany]
        have hnone : ∀ p ∈ svcs, p.2 ≠ "running" := by
          intro p hp hr
          exact hany (List.any_eq_true.mpr ⟨p, hp, by simp [hr]⟩)
        refine ⟨?_, ?_, ?_⟩
        · constructor
          · intro h; exact absurd h (by decide)
          · rintro ⟨_, h2⟩
            obtain ⟨p, hp⟩ := List.exists_mem_of_ne_nil svcs hne
            exact absurd (h2 p hp) (hnone p hp)
        · constructor
          · intro h; exact absurd h (by decide)
          · rintro ⟨⟨p, hp, hr⟩, _⟩
            exact absurd hr (hnone p hp)
        · exact iff_of_true rfl (Or.inr hnone)

/-- C1 (amended). Create/drop validate the database name by requiring every
character to be alphanumeric or an underscore: any name containing a
character outside that class — in particular '-', a space, or '.' — is
rejected with the invalid-input (Config) error before the CREATE/DROP
statement is issued (for create, on the path where the database does not
already exist, which is the only path that validates), and every name whose
characters all lie in the class has its statement issued. (The original
claim's pattern [A-Za-z0-9_]+ is not exactly the accepted set: the empty
name passes the all-characters check vacuously, and non-ASCII alphanumeric
characters are accepted too.) -/
theorem db_name_validation_spec (w : PgWorld) (db : String)
    (hs : w.hasPostgresService = true) (hc : w.connectOk = true) :
    (pgValidDbName db = false →
      (drop_postgres_database w db).1 =
        .error (.Config ("Invalid database name: " ++ db)) ∧
      ∀ e ∈ (drop_postgres_database w db).2, e = PgEffect.connect) ∧
    (pgValidDbName db = true →
      PgEffect.terminateStmt db ∈ (drop_postgres_database w db).2 ∧
      PgEffect.dropStmt db ∈ (drop_postgres_database w db).2) ∧
    (w.existsOk = true → w.dbExists db = false → pgValidDbName db = false →
      (create_postgres_database w db).1 =
        .error (.Config ("Invalid database name: " ++ db)) ∧
      PgEffect.createStmt db ∉ (create_postgres_database w db).2) ∧
    (w.existsOk = true → w.dbExists db = false → pgValidDbName db = true →
      PgEffect.createStmt db ∈ (create_postgres_database w db).2) ∧
    ((∃ c ∈ db.data, c = '-' ∨ c = ' ' ∨ c = '.') → pgValidDbName db = false) := by
  refine ⟨?_, ?_, ?_, ?_, ?_⟩
  · intro hv
    simp [drop_postgres_database, hs, hc, hv]
  · intro hv
    by_cases hd : w.execDropOk <;>
      simp [drop_postgres_database, hs, hc, hv, hd]
  · intro he hex hv
    simp [create_postgres_database, hs, hc, he, hex, hv]
  · intro he hex hv
    by_cases hcr : w.execCreateOk <;>
      simp [create_postgres_database, hs, hc, he, hex, hv, hcr]
  · rintro ⟨c, hm, hcc⟩
    apply Bool.eq_false_iff.mpr
    intro hall
    rw [pgValidDbName] at hall
    have hthis := List.all_eq_true.mp hall c hm
    rcases hcc with rfl | rfl | rfl <;> exact absurd hthis (by decide)

/-- C1 (counterexample). The empty database name does not match the
spec's pattern [A-Za-z0-9_]+, yet both drop and create accept it and issue
the DROP/CREATE statement for it instead of returning an invalid-input
error: the per-character validation is vacuously true on "". -/
theorem db_name_validation_counterexample :
    specDbNamePattern "" = false ∧
    (drop_postgres_database pgAllOk "").1 = .ok () ∧
    PgEffect.dropStmt "" ∈ (drop_postgres_database pgAllOk "").2 ∧
    (create_postgres_database pgAllOk "").1 = .ok () ∧
    PgEffect.createStmt "" ∈ (create_postgres_database pgAllOk "").2 := by
  refine ⟨rfl, rfl, ?_, rfl, ?_⟩
  · decide
  · decide

/-- C1 (witness): the amended theorem applied at the reachable world
pgAllOk and the name "bad-name". -/
theorem db_name_validation_spec_witness :
    (pgAllOk.hasPostgresService = true ∧ pgAllOk.connectOk = true) ∧
    ((pgValidDbName "bad-name" = false →
      (drop_postgres_database pgAllOk "bad-name").1 =
        .error (.Config ("Invalid database name: " ++ "bad-name")) ∧
      ∀ e ∈ (drop_postgres_database pgAllOk "bad-name").2, e = PgEffect.connect) ∧
    (pgValidDbName "bad-name" = true →
      PgEffect.terminateStmt "bad-name" ∈ (drop_postgres_database pgAllOk "bad-name").2 ∧
      PgEffect.dropStmt "bad-name" ∈ (drop_postgres_database pgAllOk "bad-name").2) ∧
    (pgAllOk.existsOk = true → pgAllOk.dbExists "bad-name" = false →
      pgValidDbName "bad-name" = false →
      (create_postgres_database pgAllOk "bad-name").1 =
        .error (.Config ("Invalid database name: " ++ "bad-name")) ∧
      PgEffect.createStmt "bad-name" ∉ (create_postgres_database pgAllOk "bad-name").2) ∧
    (pgAllOk.existsOk = true → pgAllOk.dbExists "bad-name" = false →
      pgValidDbName "bad-name" = true →
      PgEffect.createStmt "bad-name" ∈ (create_postgres_database pgAllOk "bad-name").2) ∧
    ((∃ c ∈ ("bad-name" : String).data, c = '-' ∨ c = ' ' ∨ c = '.') →
      pgValidDbName "bad-name" = false)) :=
  ⟨⟨rfl, rfl⟩, db_name_validation_spec pgAllOk "bad-name" rfl rfl⟩

/-- C3 (confirmed). For every configuration, world, branch and options, when
the resolved scratch name is non-empty and its target directory already
exists, create_scratch returns the ScratchAlreadyExists error and performs
no side effects at all: the action trace is empty, so no directory is
created or mutated, no network is ensured, no shared service or database is
provisioned, and no container is created. -/
theorem create_already_exists_no_side_effects (cfg : LifecycleCfg) (w : CreateWorld)
    (branch : String) (name profile template : Option String)
    (hne : (name.getD (Scratch.sanitize_name branch)).data.isEmpty = false)
    (hex : w.dirExists (name.getD (Scratch.sanitize_name branch)) = true) :
    create_scratch cfg w branch name profile template =
      (.error (.ScratchAlreadyExists (name.getD (Scratch.sanitize_name branch))), []) := by
  simp [create_scratch, hne, hex]

/-- C3 (witness): the theorem applied at a world where the directory of
"demo" exists. -/
theorem create_already_exists_witness :
    ((some "demo" : Option String).getD (Scratch.sanitize_name "Demo")).data.isEmpty = false ∧
    wCreate0.dirExists ((some "demo" : Option String).getD (Scratch.sanitize_name "Demo")) = true ∧
    create_scratch cfg0 wCreate0 "Demo" (some "demo") none none =
      (.error (.ScratchAlreadyExists "demo"), []) :=
  ⟨by decide, by decide,
    create_already_exists_no_side_effects cfg0 wCreate0 "Demo" (some "demo") none none
      (by decide) (by decide)⟩

theorem mem_dropDatabasesEffects {w : DeleteWorld} {m : List (String × List String)}
    {svc : String} {dbs : List String} {db : String}
    (h1 : (svc, dbs) ∈ m) (h2 : svc = "postgres") (h3 : db ∈ dbs) :
    DeleteEffect.dropDb db ∈ dropDatabasesEffects w m ∧
    (w.dropOk db = false → DeleteEffect.warnDropFailed db ∈ dropDatabasesEffects w m) := by
  subst h2
  constructor
  · rw [dropDatabasesEffects]
    apply List.mem_flatMap.mpr
    refine ⟨("postgres", dbs), h1, ?_⟩
    simp only [beq_self_eq_true, if_true]
    apply List.mem_flatMap.mpr
    refine ⟨db, h3, ?_⟩
    by_cases hok : w.dropOk db <;> simp [hok]
  · intro hko
    rw [dropDatabasesEffects]
    apply List.mem_flatMap.mpr
    refine ⟨("postgres", dbs), h1, ?_⟩
    simp only [beq_self_eq_true, if_true]
    apply List.mem_flatMap.mpr
    exact ⟨db, h3, by simp [hko]⟩

theorem delete_scratch_trace (w : DeleteWorld) (name : String)
    (hd : w.dirExists = true) (hm2 : (w.metaExists && !w.metaReadOk) = false) :
    ∃ tail, (delete_scratch w name).2 = deleteDropEffs w ++ (DeleteEffect.composeDown :: tail) ∧
      (w.stopOk = true → DeleteEffect.removeDir ∈ tail) := by
  by_cases hs : w.stopOk
  · by_cases hr : w.removeOk
    · by_cases hn : w.nginxEnabled
      · by_cases hg : w.regenOk
        · by_cases hl : w.reloadOk
          · exact ⟨[.removeDir, .regenNginx, .reloadNginx],
              by simp [delete_scratch, hd, hm2, hs, hr, hn, hg, hl], fun _ => by simp⟩
          · exact ⟨[.removeDir, .regenNginx, .reloadNginx],
              by simp [delete_scratch, hd, hm2, hs, hr, hn, hg, hl], fun _ => by simp⟩
        · exact ⟨[.removeDir, .regenNginx],
            by simp [delete_scratch, hd, hm2, hs, hr, hn, hg], fun _ => by simp⟩
      · exact ⟨[.removeDir],
          by simp [delete_scratch, hd, hm2, hs, hr, hn], fun _ => by simp⟩
    · exact ⟨[.removeDir],
        by simp [delete_scratch, hd, hm2, hs, hr], fun _ => by simp⟩
  · exact ⟨[], by simp [delete_scratch, hd, hm2, hs], fun h => absurd h (by simp [hs])⟩

/-- C2 (amended). During delete, database-drop failures are tolerated: every
listed database is drop-attempted, a failed drop only adds a warning log
line, and the compose-down step still executes whatever the drop outcomes
were; when compose-down succeeds, directory removal executes, and when
every later step succeeds the delete returns success. (The original claim
that any mid-sequence failure is logged and does not abort is too broad: a
compose-down failure aborts the delete before directory removal — see the
counterexample.) -/
theorem delete_best_effort_spec (w : DeleteWorld) (name : String)
    (hd : w.dirExists = true) (hm : w.metaExists = true → w.metaReadOk = true) :
    DeleteEffect.composeDown ∈ (delete_scratch w name).2 ∧
    (∀ m svc dbs db, w.metaExists = true → w.metaParse = some m → (svc, dbs) ∈ m →
      svc = "postgres" → db ∈ dbs →
      DeleteEffect.dropDb db ∈ (delete_scratch w name).2 ∧
      (w.dropOk db = false → DeleteEffect.warnDropFailed db ∈ (delete_scratch w name).2)) ∧
    (w.stopOk = true → DeleteEffect.removeDir ∈ (delete_scratch w name).2) ∧
    (w.stopOk = true → w.removeOk = true → w.nginxEnabled = false →
      (delete_scratch w name).1 = .ok ()) := by
  have hm2 : (w.metaExists && !w.metaReadOk) = false := by
    cases hme : w.metaExists
    · simp
    · simp [hm hme]
  obtain ⟨tail, htr, hrm⟩ := delete_scratch_trace w name hd hm2
  refine ⟨?_, ?_, ?_, ?_⟩
  · rw [htr]
    exact List.mem_append_right _ (List.mem_cons_self _ _)
  · intro m svc dbs db hme hparse hmem hsvc hdb
    have hdrop := mem_dropDatabasesEffects (w := w) hmem hsvc hdb
    have heffs : deleteDropEffs w = dropDatabasesEffects w m := by
      simp [deleteDropEffs, hme, hparse]
    constructor
    · rw [htr, heffs]
      exact List.mem_append_left _ hdrop.1
    · intro hko
      rw [htr, heffs]
      exact List.mem_append_left _ (hdrop.2 hko)
  · intro hs
    rw [htr]
    exact List.mem_append_right _ (List.mem_cons_of_mem _ (hrm hs))
  · intro hs hr hn
    simp [delete_scratch, hd, hm2, hs, hr, hn]

/-- C2 (counterexample). A failing compose-down step mid-delete aborts the
delete: the error is returned and the directory-removal step does not
execute, so a mid-sequence failure is not in general logged-and-continued. -/
theorem delete_best_effort_counterexample :
    (delete_scratch wDelStopFail "a").1 = .error (.Other "Failed to stop scratch") ∧
    DeleteEffect.removeDir ∉ (delete_scratch wDelStopFail "a").2 :=
  ⟨rfl, by decide⟩

/-- C2 (witness): the amended theorem applied at a world where every
database drop fails and the remaining steps succeed. -/
theorem delete_best_effort_spec_witness :
    (wDelDropFail.dirExists = true ∧
      (wDelDropFail.metaExists = true → wDelDropFail.metaReadOk = true)) ∧
    (DeleteEffect.composeDown ∈ (delete_scratch wDelDropFail "a").2 ∧
    (∀ m svc dbs db, wDelDropFail.metaExists = true → wDelDropFail.metaParse = some m →
      (svc, dbs) ∈ m → svc = "postgres" → db ∈ dbs →
      DeleteEffect.dropDb db ∈ (delete_scratch wDelDropFail "a").2 ∧
      (wDelDropFail.dropOk db = false →
        DeleteEffect.warnDropFailed db ∈ (delete_scratch wDelDropFail "a").2)) ∧
    (wDelDropFail.stopOk = true → DeleteEffect.removeDir ∈ (delete_scratch wDelDropFail "a").2) ∧
    (wDelDropFail.stopOk = true → wDelDropFail.removeOk = true →
      wDelDropFail.nginxEnabled = false → (delete_scratch wDelDropFail "a").1 = .ok ())) :=
  ⟨⟨rfl, fun _ => rfl⟩, delete_best_effort_spec wDelDropFail "a" rfl (fun _ => rfl)⟩

/-- C5 (confirmed). ensureRunning is idempotent: when the shared container
with the deterministic name scratchpad-<key> is listed and reports state
"running", the call returns success immediately, with no create or start
action and the container list unchanged; and starting from a state with no
such container, two sequential calls for the same key perform exactly one
container creation between them. -/
theorem ensure_shared_idempotent (w : SharedWorld) (cs : List ContainerInfo) (key : String) :
    (∀ svc c, w.services.lookup key = some svc → svc.shared = true → w.listOk = true →
      cs.find? (fun d => d.name == sharedContainerName key) = some c →
      c.state = "running" →
      ensure_shared_service_running w cs key = (.ok (), cs, [SharedEffect.listShared])) ∧
    (∀ svc, w.services.lookup key = some svc → svc.shared = true → w.listOk = true →
      w.createOk = true →
      cs.find? (fun d => d.name == sharedContainerName key) = none →
      countCreates ((ensure_shared_service_running w cs key).2.2 ++
        (ensure_shared_service_running w
          (ensure_shared_service_running w cs key).2.1 key).2.2) = 1) := by
  constructor
  · intro svc c hlk hsh hlist hfind hstate
    simp [ensure_shared_service_running, hlk, hsh, hlist, hfind, hstate]
  · intro svc hlk hsh hlist hcr hfind
    by_cases hh : svc.healthcheck.isSome
    · by_cases hok : w.healthyOk
      · simp [ensure_shared_service_running, hlk, hsh, hlist, hcr, hfind, hh, hok,
          List.find?_append, countCreates]
      · simp [ensure_shared_service_running, hlk, hsh, hlist, hcr, hfind, hh, hok,
          List.find?_append, countCreates]
    · simp [ensure_shared_service_running, hlk, hsh, hlist, hcr, hfind, hh,
        List.find?_append, countCreates]

/-- C5 (witness): from an empty container list, two sequential calls for
the postgres key create exactly one container. -/
theorem ensure_shared_idempotent_witness :
    (wShared0.services.lookup "postgres" = some pgEntry0 ∧ pgEntry0.shared = true ∧
      wShared0.listOk = true ∧ wShared0.createOk = true ∧
      ([] : List ContainerInfo).find? (fun d => d.name == sharedContainerName "postgres") =
        none) ∧
    countCreates ((ensure_shared_service_running wShared0 [] "postgres").2.2 ++
      (ensure_shared_service_running wShared0
        (ensure_shared_service_running wShared0 [] "postgres").2.1 "postgres").2.2) = 1 :=
  ⟨⟨rfl, rfl, rfl, rfl, rfl⟩,
    (ensure_shared_idempotent wShared0 [] "postgres").2 pgEntry0 rfl rfl rfl rfl rfl⟩

theorem hub_lookup_eq_of_mem {st : HubState} {c : String} {v : List Sink}
    (hnd : (st.map Prod.fst).Nodup) (hmem : (c, v) ∈ st) : st.lookup c = some v := by
  induction st with
  | nil => simp at hmem
  | cons p rest ih =>
    rw [List.map_cons, List.nodup_cons] at hnd
    rcases List.mem_cons.mp hmem with h | h
    · rw [← h]
      simp [List.lookup]
    · have hc : p.1 ≠ c := by
        intro he
        apply hnd.1
        rw [he]
        exact List.mem_map.mpr ⟨(c, v), h, rfl⟩
      obtain ⟨k, b⟩ := p
      have hck : (c == k) = false := by
        simp only [beq_eq_false_iff_ne, ne_eq]
        exact fun hh => hc (by simp [hh])
      simp only [List.lookup, hck]
      exact ih hnd.2 h

/-- C7 (confirmed). Broadcast mutates nothing and attempts a send to
exactly the sinks of the broadcast channel's entry: no sink subscribed only
to a different channel is targeted, every live sink of the channel receives
the message, and a failed send to a closed sink is discarded (the result
carries no error). And when every sink of a channel is closed, a cleanup
pass removes the channel from the active-channel list. -/
theorem broadcast_spec (st : HubState) (C : String)
    (hnd : (st.map Prod.fst).Nodup) :
    (hubBroadcast st C).1 = st ∧
    (hubBroadcast st C).2.1 = hubSinksOf st C ∧
    (∀ D s, D ≠ C → s ∈ hubSinksOf st D → s ∉ hubSinksOf st C →
      s ∉ (hubBroadcast st C).2.1) ∧
    (∀ s ∈ hubSinksOf st C, s.closed = false → s.id ∈ (hubBroadcast st C).2.2) ∧
    ((∀ s ∈ hubSinksOf st C, s.closed = true) → C ∉ hubChannels (hubCleanup st)) := by
  refine ⟨rfl, rfl, ?_, ?_, ?_⟩
  · intro D s _ _ hnot
    simpa [hubBroadcast] using hnot
  · intro s hs hcl
    exact List.mem_map.mpr ⟨s, List.mem_filter.mpr ⟨hs, by simp [hcl]⟩, rfl⟩
  · intro hall hC
    simp only [hubChannels, List.mem_map] at hC
    obtain ⟨q, hq, hq1⟩ := hC
    rw [hubCleanup, List.mem_filter] at hq
    obtain ⟨hq2, hqne⟩ := hq
    rw [List.mem_map] at hq2
    obtain ⟨⟨p1, p2⟩, hp, hpq⟩ := hq2
    have hp1 : p1 = C := by
      rw [← hpq] at hq1
      exact hq1
    subst hp1
    have hlk : st.lookup p1 = some p2 := hub_lookup_eq_of_mem hnd hp
    have hsinks : hubSinksOf st p1 = p2 := by simp [hubSinksOf, hlk]
    have hfil : p2.filter (fun s => !s.closed) = [] := by
      rw [List.filter_eq_nil_iff]
      intro a ha
      simp [hall a (by rw [hsinks]; exact ha)]
    rw [← hpq] at hqne
    simp [hfil] at hqne

/-- C7 (witness): the theorem applied at a state with a dead channel
"status:a" and a live channel "logs:a". -/
theorem broadcast_spec_witness :
    (hubSt0.map Prod.fst).Nodup ∧
    ((hubBroadcast hubSt0 "status:a").1 = hubSt0 ∧
    (hubBroadcast hubSt0 "status:a").2.1 = hubSinksOf hubSt0 "status:a" ∧
    (∀ D s, D ≠ "status:a" → s ∈ hubSinksOf hubSt0 D →
      s ∉ hubSinksOf hubSt0 "status:a" → s ∉ (hubBroadcast hubSt0 "status:a").2.1) ∧
    (∀ s ∈ hubSinksOf hubSt0 "status:a", s.closed = false →
      s.id ∈ (hubBroadcast hubSt0 "status:a").2.2) ∧
    ((∀ s ∈ hubSinksOf hubSt0 "status:a", s.closed = true) →
      "status:a" ∉ hubChannels (hubCleanup hubSt0))) :=
  ⟨by decide, broadcast_spec hubSt0 "status:a" (by decide)⟩

theorem hubApply_inv (st : HubState) (op : HubOp)
    (h : st.all (fun p => !p.2.isEmpty) = true) :
    (hubApply st op).all (fun p => !p.2.isEmpty) = true := by
  cases op with
  | sub c tx =>
    simp only [hubApply, hubSubscribe]
    split
    · rw [List.all_eq_true] at h ⊢
      intro p hp
      rw [List.mem_map] at hp
      obtain ⟨q, hq, rfl⟩ := hp
      split
      · simp
      · exact h q hq
    · rw [List.all_eq_true] at h ⊢
      intro p hp
      rcases List.mem_append.mp hp with hp | hp
      · exact h p hp
      · rw [List.mem_singleton.mp hp]
        simp
  | unsub c =>
    simp only [hubApply, hubUnsubscribe]
    rw [List.all_eq_true]
    intro p hp
    exact (List.mem_filter.mp hp).2
  | bcast c => exact h
  | clean =>
    simp only [hubApply, hubCleanup]
    rw [List.all_eq_true]
    intro p hp
    exact (List.mem_filter.mp hp).2
  | close i =>
    simp only [hubApply, hubCloseSink]
    rw [List.all_eq_true] at h ⊢
    intro p hp
    rw [List.mem_map] at hp
    obtain ⟨q, hq, rfl⟩ := hp
    have hqne := h q hq
    cases hc : q.2 with
    | nil =>
      rw [hc] at hqne
      simp at hqne
    | cons a t => simp [hc]

/-- C10 (confirmed). Starting from the empty subscriber map, after any
sequence of subscribe, unsubscribe, broadcast, cleanup and client-close
operations, every channel present in the map holds at least one sink:
unsubscribe and cleanup drop every channel whose sink list became empty,
and no other operation can leave an empty entry behind. -/
theorem hub_no_empty_channels (ops : List HubOp) :
    (hubRun ops).all (fun p => !p.2.isEmpty) = true := by
  suffices h : ∀ st, st.all (fun p => !p.2.isEmpty) = true →
      (ops.foldl hubApply st).all (fun p => !p.2.isEmpty) = true by
    exact h [] rfl
  induction ops with
  | nil => intro st h; exact h
  | cons op rest ih =>
    intro st h
    exact ih _ (hubApply_inv st op h)

theorem countUpstreams_cons (b : NginxBlock) (bs : List NginxBlock) :
    countUpstreams (b :: bs) = (if isUpstreamBlock b then 1 else 0) + countUpstreams bs := by
  simp only [countUpstreams, List.filter_cons]
  split <;> simp [Nat.add_comm]

theorem countUpstreams_append (l1 l2 : List NginxBlock) :
    countUpstreams (l1 ++ l2) = countUpstreams l1 + countUpstreams l2 := by
  simp [countUpstreams, List.filter_append]

theorem countPerScratch_cons (b : NginxBlock) (bs : List NginxBlock) :
    countPerScratchServers (b :: bs) = perScratchCount b + countPerScratchServers bs := by
  simp [countPerScratchServers]

theorem countPerScratch_append (l1 l2 : List NginxBlock) :
    countPerScratchServers (l1 ++ l2) =
      countPerScratchServers l1 + countPerScratchServers l2 := by
  simp [countPerScratchServers]

theorem counts_renderStatic (d i : String) (p : Nat) (r : Routing) (scr : List String) :
    countUpstreams (renderStaticBlocks d i p r scr) = scr.length ∧
    countPerScratchServers (renderStaticBlocks d i p r scr) = scr.length := by
  have hup : ∀ sc : List String,
      countUpstreams (sc.map (fun n =>
        NginxBlock.upstream n (n ++ "-" ++ i ++ ":" ++ toString p))) = sc.length ∧
      countPerScratchServers (sc.map (fun n =>
        NginxBlock.upstream n (n ++ "-" ++ i ++ ":" ++ toString p))) = 0 := by
    intro sc
    induction sc with
    | nil => exact ⟨rfl, rfl⟩
    | cons a t ih =>
      rw [List.map_cons, countUpstreams_cons, countPerScratch_cons]
      simp [isUpstreamBlock, perScratchCount, ih.1, ih.2, Nat.add_comm]
  have hsrv : ∀ sc : List String,
      countUpstreams (sc.map (fun n => NginxBlock.serverPerScratch n (n ++ "." ++ d))) = 0 ∧
      countPerScratchServers
        (sc.map (fun n => NginxBlock.serverPerScratch n (n ++ "." ++ d))) = sc.length := by
    intro sc
    induction sc with
    | nil => exact ⟨rfl, rfl⟩
    | cons a t ih =>
      rw [List.map_cons, countUpstreams_cons, countPerScratch_cons]
      simp [isUpstreamBlock, perScratchCount, ih.1, ih.2, Nat.add_comm]
  cases r with
  | subdomain =>
    simp only [renderStaticBlocks, countUpstreams_append, countPerScratch_append]
    rw [(hup scr).1, (hup scr).2, (hsrv scr).1, (hsrv scr).2]
    simp
  | path =>
    simp only [renderStaticBlocks, countUpstreams_append, countPerScratch_append]
    rw [(hup scr).1, (hup scr).2]
    simp [countUpstreams, countPerScratchServers, isUpstreamBlock, perScratchCount]

/-- C8 (confirmed). With routing enabled and an ingress service configured:
in static mode (dynamic explicitly false) the document written by
regeneration contains exactly one upstream block and exactly one
server/location entry per listed scratch; in dynamic mode the written
document contains no per-scratch blocks at all, regardless of how many
scratches exist (the dynamic renderer never reads the scratch list). -/
theorem regenerate_blocks_per_scratch (cfg : NginxCfg) (w : NginxWorld) (ingress : String)
    (hen : cfg.enabled = true) (hin : cfg.ingress_service = some ingress) :
    ((cfg.dynamic = some false → w.listOk = true →
      (∀ bs, NginxEffect.writeConfig bs ∈ (regenerate_config cfg w).2 →
        countUpstreams bs = w.scratches.length ∧
        countPerScratchServers bs = w.scratches.length) ∧
      (w.mkdirOk = true →
        ∃ bs, NginxEffect.writeConfig bs ∈ (regenerate_config cfg w).2)) ∧
     (cfg.dynamic.getD true = true →
      ∀ bs, NginxEffect.writeConfig bs ∈ (regenerate_config cfg w).2 →
        countUpstreams bs = 0 ∧ countPerScratchServers bs = 0)) := by
  constructor
  · intro hdyn hlist
    have hud : cfg.dynamic.getD true = false := by rw [hdyn]; rfl
    constructor
    · intro bs hb
      by_cases hmk : w.mkdirOk
      · by_cases hwr : w.writeOk
        · simp [regenerate_config, hen, hin, hud, hlist, writeRendered, hmk, hwr] at hb
          rw [hb]
          exact counts_renderStatic _ _ _ _ _
        · simp [regenerate_config, hen, hin, hud, hlist, writeRendered, hmk, hwr] at hb
          rw [hb]
          exact counts_renderStatic _ _ _ _ _
      · simp [regenerate_config, hen, hin, hud, hlist, writeRendered, hmk] at hb
    · intro hmk
      by_cases hwr : w.writeOk <;>
        simp [regenerate_config, hen, hin, hud, hlist, writeRendered, hmk, hwr]
  · intro hud bs hb
    by_cases hmk : w.mkdirOk
    · by_cases hwr : w.writeOk
      · simp [regenerate_config, hen, hin, hud, writeRendered, hmk, hwr] at hb
        rw [hb]
        exact ⟨rfl, rfl⟩
      · simp [regenerate_config, hen, hin, hud, writeRendered, hmk, hwr] at hb
        rw [hb]
        exact ⟨rfl, rfl⟩
    · simp [regenerate_config, hen, hin, hud, writeRendered, hmk] at hb

/-- C8 (witness): the theorem applied to a static-mode configuration with
two listed scratches. -/
theorem regenerate_blocks_per_scratch_witness :
    (cfgStat0.enabled = true ∧ cfgStat0.ingress_service = some "web") ∧
    ((cfgStat0.dynamic = some false → wNg0.listOk = true →
      (∀ bs, NginxEffect.writeConfig bs ∈ (regenerate_config cfgStat0 wNg0).2 →
        countUpstreams bs = wNg0.scratches.length ∧
        countPerScratchServers bs = wNg0.scratches.length) ∧
      (wNg0.mkdirOk = true →
        ∃ bs, NginxEffect.writeConfig bs ∈ (regenerate_config cfgStat0 wNg0).2)) ∧
     (cfgStat0.dynamic.getD true = true →
      ∀ bs, NginxEffect.writeConfig bs ∈ (regenerate_config cfgStat0 wNg0).2 →
        countUpstreams bs = 0 ∧ countPerScratchServers bs = 0)) :=
  ⟨⟨rfl, rfl⟩, regenerate_blocks_per_scratch cfgStat0 wNg0 "web" rfl rfl⟩

/-- C9 (confirmed). regenerate_config returns success with an empty action
trace (in particular, no file write) when routing is disabled; and when
routing is enabled but no ingress_service is configured, it fails with the
configuration error before performing any action, so nothing is written. -/
theorem regenerate_guard_spec (cfg : NginxCfg) (w : NginxWorld) :
    (cfg.enabled = false → regenerate_config cfg w = (.ok (), [])) ∧
    (cfg.enabled = true → cfg.ingress_service = none →
      regenerate_config cfg w =
        (.error (.Config
          "nginx.ingress_service must be set to specify which service handles incoming requests"),
          [])) := by
  constructor
  · intro hen
    simp [regenerate_config, hen]
  · intro hen hin
    simp [regenerate_config, hen, hin]

/-- C9 (witness): the theorem applied to a disabled configuration and to an
enabled configuration missing the ingress service. -/
theorem regenerate_guard_spec_witness :
    (cfgOff0.enabled = false ∧ regenerate_config cfgOff0 wNg0 = (.ok (), [])) ∧
    (cfgNoIngress0.enabled = true ∧ cfgNoIngress0.ingress_service = none ∧
      regenerate_config cfgNoIngress0 wNg0 =
        (.error (.Config
          "nginx.ingress_service must be set to specify which service handles incoming requests"),
          [])) :=
  ⟨⟨rfl, (regenerate_guard_spec cfgOff0 wNg0).1 rfl⟩,
   ⟨rfl, rfl, (regenerate_guard_spec cfgNoIngress0 wNg0).2 rfl rfl⟩⟩
